import Mathlib

/-!
Verification development for the sift map-generation core
(src/pkg/sift/Parameters.py).

Modelling conventions:
  - IEEE floating point numbers are modelled by real numbers; the one division
    in the code whose denominator can be zero (the D_l to C_l conversion at
    multipole 0, which numpy evaluates to NaN) is modelled with values in
    Option R, where none stands for a non-finite float (NaN).
  - The external collaborators (CAMB, make_gaussian_realisation, get_bl,
    get_nl, get_lpf_hpf, get_covariance, inpainting, numpy global RNG,
    scipy fsolve) are abstract fields of a Collab structure; the numpy
    global random state is threaded explicitly as a state value of an
    abstract type S, and the covariance object has abstract type C.
  - 2-D numpy arrays are modelled as total functions Nat -> Nat -> R;
    the bounds-checked single-pixel read of numpy is modelled separately
    by readPixel, which returns none exactly when numpy raises IndexError.
-/

noncomputable section

/-- Speed of light in m/s (Parameters.py, module constant c). -/
def c : ℝ := 299792458.0

/-- Planck constant in SI units (Parameters.py, module constant h_p). -/
def h_p : ℝ := 6.626068e-34

/-- Boltzmann constant in SI units (Parameters.py, module constant k_b). -/
def k_b : ℝ := 1.38065e-23

/-- Canonical CMB temperature in Kelvin (Parameters.py, module constant TCMB). -/
def TCMB : ℝ := 2.725

/-- Blackbody function d_b from Parameters.py: given a differential
temperature dt and a frequency, returns the spectral brightness
distribution.  Direct transcription of the body of d_b. -/
def d_b (dt frequency : ℝ) : ℝ :=
  let temp := TCMB / (1 + dt)
  let x := (h_p / (k_b * temp)) * frequency
  let I := ((2 * h_p) / (c ^ 2)) * (k_b * temp / h_p) ^ 3
  I * (x ^ 4 * Real.exp x / ((Real.exp x - 1) ^ 2)) / temp * dt

/-- Dimensionless frequency x_b from the body of classical_tsz. -/
def x_b (frequency : ℝ) : ℝ := (h_p / (k_b * TCMB)) * frequency

/-- Prefactor bv from the body of classical_tsz (the line defining bv). -/
def classical_tsz_bv (frequency : ℝ) : ℝ :=
  2 * k_b * TCMB * ((frequency ^ 2) / (c ^ 2)) *
    (x_b frequency / (Real.exp (x_b frequency) - 1))

/-- Classical tSZ function from Parameters.py: given a Compton y value and a
frequency, returns the spectral brightness distribution.  Direct
transcription of the return line of classical_tsz, with the local
variables x_b and bv floated out into the two definitions above. -/
def classical_tsz (y frequency : ℝ) : ℝ :=
  y * ((x_b frequency * Real.exp (x_b frequency)) / (Real.exp (x_b frequency) - 1)) *
    (x_b frequency * ((Real.exp (x_b frequency) + 1) / (Real.exp (x_b frequency) - 1)) - 4) *
    classical_tsz_bv frequency

/-- Blackbody intensity B_nu as written in the specification (spec section
4.1): 2 h nu^3 / c^2 divided by (e^(x_b) - 1).  This definition follows the
words of the spec, to be compared with the code prefactor classical_tsz_bv. -/
def B_nu (frequency : ℝ) : ℝ :=
  2 * h_p * frequency ^ 3 / c ^ 2 / (Real.exp (x_b frequency) - 1)

theorem exp_sub_one_ne_zero_of_pos {t : ℝ} (ht : 0 < t) : Real.exp t - 1 ≠ 0 := by
  have h := Real.add_one_lt_exp (ne_of_gt ht)
  have : 1 < Real.exp t := by linarith
  linarith [this]

theorem x_b_pos {frequency : ℝ} (hf : 0 < frequency) : 0 < x_b frequency := by
  have h1 : (0:ℝ) < h_p / (k_b * TCMB) := by norm_num [h_p, k_b, TCMB]
  exact mul_pos h1 hf

theorem bv_eq_generic (k T h f cc E : ℝ) (hkT : k * T ≠ 0) (hc : cc ≠ 0)
    (hE : E - 1 ≠ 0) :
    2 * k * T * ((f ^ 2) / (cc ^ 2)) * ((h / (k * T)) * f / (E - 1)) =
      2 * h * f ^ 3 / cc ^ 2 / (E - 1) := by
  field_simp
  ring

theorem classical_tsz_bv_eq_B_nu (frequency : ℝ) (hf : 0 < frequency) :
    classical_tsz_bv frequency = B_nu frequency := by
  have hkT : k_b * TCMB ≠ 0 := by norm_num [k_b, TCMB]
  have hc : c ≠ 0 := by norm_num [c]
  have hE : Real.exp (x_b frequency) - 1 ≠ 0 :=
    exp_sub_one_ne_zero_of_pos (x_b_pos hf)
  exact bv_eq_generic k_b TCMB h_p frequency c (Real.exp (x_b frequency)) hkT hc hE

/-- C6: classical_tsz y frequency equals y times [x_b e^(x_b)/(e^(x_b)-1)]
times [x_b (e^(x_b)+1)/(e^(x_b)-1) - 4] times the blackbody intensity B_nu
with x_b = h nu / (k_B T_CMB) and B_nu = 2 h nu^3 / c^2 / (e^(x_b)-1); in
particular the code prefactor bv (classical_tsz_bv) equals B_nu, for every
positive frequency. -/
theorem classical_tsz_spec_form (y frequency : ℝ) (hf : 0 < frequency) :
    classical_tsz_bv frequency = B_nu frequency ∧
    classical_tsz y frequency =
      y * ((x_b frequency * Real.exp (x_b frequency)) / (Real.exp (x_b frequency) - 1)) *
        (x_b frequency * ((Real.exp (x_b frequency) + 1) / (Real.exp (x_b frequency) - 1)) - 4) *
        B_nu frequency := by
  refine ⟨classical_tsz_bv_eq_B_nu frequency hf, ?_⟩
  unfold classical_tsz
  rw [classical_tsz_bv_eq_B_nu frequency hf]

/-- Witness for C6 at the concrete reference frequency 143 GHz and y = 1. -/
theorem classical_tsz_spec_form_witness :
    classical_tsz_bv 143e9 = B_nu 143e9 ∧
    classical_tsz 1 143e9 =
      1 * ((x_b 143e9 * Real.exp (x_b 143e9)) / (Real.exp (x_b 143e9) - 1)) *
        (x_b 143e9 * ((Real.exp (x_b 143e9) + 1) / (Real.exp (x_b 143e9) - 1)) - 4) *
        B_nu 143e9 :=
  classical_tsz_spec_form 1 143e9 (by norm_num)

/-- C8: the differential blackbody brightness d_b vanishes at zero
temperature perturbation, for every positive frequency. -/
theorem d_b_zero_at_zero_dt (frequency : ℝ) (hf : 0 < frequency) :
    d_b 0 frequency = 0 := by
  simp [d_b]

/-- Witness for C8 at the concrete reference frequency 143 GHz. -/
theorem d_b_zero_at_zero_dt_witness : d_b 0 143e9 = 0 :=
  d_b_zero_at_zero_dt 143e9 (by norm_num)

/-- Sky maps: 2-D numpy arrays of pixel values, modelled as total functions. -/
abbrev SkyMap := ℕ → ℕ → ℝ

/-- Float value that may be non-finite: none models the NaN produced by a
numpy division whose denominator is zero (0/0 at the monopole). -/
abbrev FVal := Option ℝ

/-- Elementwise numpy float division: a zero denominator does not produce a
real number (the code path exercises it only as 0/0, which is NaN). -/
def fdiv (x y : ℝ) : FVal := if y = 0 then none else some (x / y)

/-- Conversion factor dl_fac = el (el + 1) / 2 / pi from create_cmb_map,
create_ksz_map and create_tsz_map. -/
def dl_fac (l : ℕ) : ℝ := l * (l + 1) / 2 / Real.pi

/-- Power-spectrum conversion cl_tt = (TCMB ** 2 * dl_tt * 1e12) / dl_fac
shared verbatim by create_cmb_map, create_ksz_map and create_tsz_map. -/
def dlToCl (dl : ℕ → ℝ) (l : ℕ) : FVal :=
  fdiv (TCMB ^ 2 * dl l * 1e12) (dl_fac l)

/-- Flat kSZ band power dl_tt of create_ksz_map: 3e-12 everywhere, with the
entry at multipole 0 overwritten to 0. -/
def ksz_dl (l : ℕ) : ℝ := if l = 0 then 0 else 3e-12

/-- Flat tSZ band power dl_tt of create_tsz_map: 3.42e-12 everywhere, with
the entry at multipole 0 overwritten to 0. -/
def tsz_dl (l : ℕ) : ℝ := if l = 0 then 0 else 3.42e-12

/-- CAMB-derived dl_tt of create_cmb_map after the assignment dl_tt[0] = 0;
the argument is the abstract CAMB total TT band power. -/
def cmb_dl (camb_dl_tt : ℕ → ℝ) (l : ℕ) : ℝ := if l = 0 then 0 else camb_dl_tt l

/-- Map side length nx = int(boxsize_am / dx) with boxsize_am = 3000
arcminutes, used by create_ksz_map and create_tsz_map. -/
def nxOf (angular_resolution : ℝ) : ℕ := Nat.floor (3000 / angular_resolution)

/-- Map side length nx = int(boxsize_am / dx) with boxsize_am = 200
arcminutes, used by create_cmb_map. -/
def nxCmbOf (angular_resolution : ℝ) : ℕ := Nat.floor (200 / angular_resolution)

/-- Bounds-checked single-pixel read of an n-by-n numpy array: none models
the IndexError numpy raises when a nonnegative index reaches past the end. -/
def readPixel (n : ℕ) (m : SkyMap) (i j : ℕ) : Option ℝ :=
  if i < n ∧ j < n then some (m i j) else none

/-- Mean of the 5-by-5 neighbourhood slice [long-2:long+3, lat-2:lat+3]
used by create_parameter_file (np.mean of the 25-pixel block). -/
def localMean (m : SkyMap) (long lat : ℕ) : ℝ :=
  (∑ i ∈ Finset.range 5, ∑ j ∈ Finset.range 5, m (long - 2 + i) (lat - 2 + j)) / 25

/-- Background-subtracted amplitude of create_parameter_file: the sampled
pixel minus the mean of its surrounding 5-by-5 neighbourhood. -/
def backSubAmp (m : SkyMap) (long lat : ℕ) : ℝ := m long lat - localMean m long lat

/-- External collaborators of Parameters.py, with the numpy global random
state threaded explicitly through an abstract state type S; C is the type of
the opaque covariance object of the inpainting service.  Deterministic
builders (CAMB spectra, get_bl, get_nl, get_lpf_hpf, scipy fsolve) are plain
functions; the stochastic ones consume and return the state. -/
structure Collab (S C : Type) where
  npseed : ℕ → S
  camb_dl_tt : ℕ → ℝ
  get_bl : ℝ → List ℝ → SkyMap
  get_nl : ℝ → ℕ → ℝ
  get_lpf_hpf : List ℝ → ℕ → ℕ → SkyMap
  make_gaussian_realisation : List ℝ → (ℕ → FVal) → Option SkyMap → S → SkyMap × S
  get_covariance : List ℝ → (ℕ → FVal) → SkyMap → SkyMap → (ℕ → ℝ) → ℕ → ℝ → ℝ → S → C × S
  inpainting : SkyMap → (ℕ → FVal) → SkyMap → SkyMap → (ℕ → ℝ) → ℝ → ℝ → C → S → (SkyMap × SkyMap × SkyMap) × S
  randint : ℕ → ℕ → S → ℕ × S
  fsolve : (ℝ → ℝ → ℝ) → ℝ → ℝ → ℝ

variable {S C : Type}

/-- Mapparams [nx, nx, dx, dx] of create_ksz_map and create_tsz_map
(3000-arcmin box at the requested pixel scale). -/
def szMapparams (angular_resolution : ℝ) : List ℝ :=
  [nxOf angular_resolution, nxOf angular_resolution, angular_resolution, angular_resolution]

/-- Model of Parameters.create_ksz_map: seed the generator, build the flat
kSZ spectrum converted to C_l, build the beam, draw one gaussian
realisation on the 3000-arcmin box, and rescale by 1e-6 to Kelvin.  The
second component is the numpy global random state after the call. -/
def create_ksz_map (E : Collab S C) (angular_resolution : ℝ) (seed : ℕ) : SkyMap × S :=
  let s0 := E.npseed seed
  let cl_tt := dlToCl ksz_dl
  let mp := szMapparams angular_resolution
  let bl := E.get_bl angular_resolution mp
  let t := E.make_gaussian_realisation mp cl_tt (some bl) s0
  (fun i j => t.1 i j * 1e-6, t.2)

/-- Scalar equation func of create_tsz_map: classical_tsz at the candidate
y minus d_b at the pixel temperature, both at 143 GHz. -/
def tszFunc (y_value dt : ℝ) : ℝ :=
  classical_tsz y_value 143e9 - d_b dt 143e9

/-- Temperature map TSZ_T of create_tsz_map (gaussian realisation of the
flat tSZ spectrum, rescaled to Kelvin), with the post-call random state. -/
def tszTempOf (E : Collab S C) (angular_resolution : ℝ) (seed : ℕ) : SkyMap × S :=
  let s0 := E.npseed seed
  let cl_tt := dlToCl tsz_dl
  let mp := szMapparams angular_resolution
  let bl := E.get_bl angular_resolution mp
  let t := E.make_gaussian_realisation mp cl_tt (some bl) s0
  (fun i j => t.1 i j * 1e-6, t.2)

/-- Model of Parameters.create_tsz_map: build the temperature map TSZ_T,
then per pixel solve func = 0 for y with the scalar root-finder fsolve
started at 0, storing the result in TSZ_Y. -/
def create_tsz_map (E : Collab S C) (angular_resolution : ℝ) (seed : ℕ) : SkyMap × S :=
  let t := tszTempOf E angular_resolution seed
  (fun i k => E.fsolve tszFunc 0 (t.1 i k), t.2)

/-- CAMB TT band power of create_cmb_map after dl_tt[0] = 0. -/
def cmbDl (E : Collab S C) : ℕ → ℝ := cmb_dl E.camb_dl_tt

/-- Converted spectrum cl_tt of create_cmb_map. -/
def cmbCl (E : Collab S C) : ℕ → FVal := dlToCl (cmbDl E)

/-- Mapparams [nx, nx, dx, dx] of create_cmb_map (200-arcmin box). -/
def cmbMapparams (angular_resolution : ℝ) : List ℝ :=
  [nxCmbOf angular_resolution, nxCmbOf angular_resolution, angular_resolution, angular_resolution]

/-- Beam transfer function bl of create_cmb_map (beamval equals the
angular resolution). -/
def cmbBl (E : Collab S C) (angular_resolution : ℝ) : SkyMap :=
  E.get_bl angular_resolution (cmbMapparams angular_resolution)

/-- Noise power nl of create_cmb_map (noiseval = 1.0 uK-arcmin). -/
def cmbNl (E : Collab S C) : ℕ → ℝ := E.get_nl 1

/-- Low-pass filter lpf of create_cmb_map (cutoff 3000, filter_type 0). -/
def cmbLpf (E : Collab S C) (angular_resolution : ℝ) : SkyMap :=
  E.get_lpf_hpf (cmbMapparams angular_resolution) 3000 0

/-- Signal realisation cmb_map of create_cmb_map: the single gaussian
realisation of the converted CAMB spectrum drawn right after seeding. -/
def cmbSignalOf (E : Collab S C) (angular_resolution : ℝ) (seed : ℕ) : SkyMap × S :=
  E.make_gaussian_realisation (cmbMapparams angular_resolution) (cmbCl E)
    (some (cmbBl E angular_resolution)) (E.npseed seed)

/-- Noise realisation noise_map of create_cmb_map: the single gaussian
realisation of the noise spectrum drawn right after the signal. -/
def cmbNoiseOf (E : Collab S C) (angular_resolution : ℝ) (seed : ℕ) : SkyMap × S :=
  E.make_gaussian_realisation (cmbMapparams angular_resolution)
    (fun l => some (cmbNl E l)) none (cmbSignalOf E angular_resolution seed).2

/-- Composite map sim_map = cmb_map + noise_map of create_cmb_map, built
once before the realization loop. -/
def simMapOf (E : Collab S C) (angular_resolution : ℝ) (seed : ℕ) : SkyMap :=
  fun i j => (cmbSignalOf E angular_resolution seed).1 i j +
    (cmbNoiseOf E angular_resolution seed).1 i j

/-- Covariance object sigma_dic of create_cmb_map (noofsims = 1000, mask
radii 8 and 60 arcmin), with the post-call random state. -/
def cmbCovOf (E : Collab S C) (angular_resolution : ℝ) (seed : ℕ) : C × S :=
  E.get_covariance (cmbMapparams angular_resolution) (cmbCl E)
    (cmbBl E angular_resolution) (cmbLpf E angular_resolution) (cmbNl E)
    1000 8 60 (cmbNoiseOf E angular_resolution seed).2

/-- Realization loop of create_cmb_map: each iteration calls the inpainting
collaborator on sim_map and appends the difference between the central
pixel [33:34, 33:34] of the returned filtered map (third component) and of
the returned inpainted map (second component). -/
def cmbLoop (E : Collab S C) (sim_map : SkyMap) (cl : ℕ → FVal) (bl lpf : SkyMap)
    (nl : ℕ → ℝ) (sig : C) : ℕ → S → List ℝ × S
  | 0, s => ([], s)
  | n + 1, s =>
      let r := E.inpainting sim_map cl bl lpf nl 8 60 sig s
      let rest := cmbLoop E sim_map cl bl lpf nl sig n r.2
      ((r.1.2.2 33 33 - r.1.2.1 33 33) :: rest.1, rest.2)

/-- Random state of create_cmb_map at the start of loop iteration i, given
the state s at the start of the loop. -/
def cmbStateAt (E : Collab S C) (sim_map : SkyMap) (cl : ℕ → FVal) (bl lpf : SkyMap)
    (nl : ℕ → ℝ) (sig : C) (s : S) (i : ℕ) : S :=
  (fun t => (E.inpainting sim_map cl bl lpf nl 8 60 sig t).2)^[i] s

/-- Model of Parameters.create_cmb_map: CAMB spectrum conversion, beam,
noise and filter construction, one signal and one noise realisation summed
into sim_map, covariance construction, then the realization loop; the
collected central-pixel differences are rescaled by 1e-6 at the end.  The
second component is the numpy global random state after the call. -/
def create_cmb_map (E : Collab S C) (angular_resolution : ℝ) (realizations : ℕ)
    (seed : ℕ) : List ℝ × S :=
  let t := cmbLoop E (simMapOf E angular_resolution seed) (cmbCl E)
    (cmbBl E angular_resolution) (cmbLpf E angular_resolution) (cmbNl E)
    (cmbCovOf E angular_resolution seed).1 realizations
    (cmbCovOf E angular_resolution seed).2
  (t.1.map (fun a => a * 1e-6), t.2)

/-- Result of the inpainting call made at loop iteration i of
create_cmb_map: the collaborator is applied to sim_map (the same composite
map for every i) and to the random state reached at iteration i. -/
def cmbInpaintAt (E : Collab S C) (angular_resolution : ℝ) (seed : ℕ) (i : ℕ) :
    (SkyMap × SkyMap × SkyMap) × S :=
  E.inpainting (simMapOf E angular_resolution seed) (cmbCl E)
    (cmbBl E angular_resolution) (cmbLpf E angular_resolution) (cmbNl E) 8 60
    (cmbCovOf E angular_resolution seed).1
    (cmbStateAt E (simMapOf E angular_resolution seed) (cmbCl E)
      (cmbBl E angular_resolution) (cmbLpf E angular_resolution) (cmbNl E)
      (cmbCovOf E angular_resolution seed).1 (cmbCovOf E angular_resolution seed).2 i)

/-- Coordinate draws of one iteration of the realization loop of
create_parameter_file, in program order: sides_long and sides_lat from
randint(0, 160), then long and lat from randint(2, 998). -/
def realizationDraws (E : Collab S C) (s : S) : (ℕ × ℕ × ℕ × ℕ) × S :=
  let r1 := E.randint 0 160 s
  let r2 := E.randint 0 160 r1.2
  let r3 := E.randint 2 998 r2.2
  let r4 := E.randint 2 998 r3.2
  ((r1.1, r2.1, r3.1, r4.1), r4.2)

/-- Row params_realization built by one iteration of the loop of
create_parameter_file: the two catalog coordinates, the i-th CMB
anisotropy amplitude, and the background-subtracted kSZ and tSZ
amplitudes at the drawn map coordinates. -/
def realizationRow (E : Collab S C) (ksz_map tsz_map : SkyMap) (amp_cmb_i : ℝ)
    (s : S) : List ℝ × S :=
  let d := realizationDraws E s
  ([(d.1.1 : ℝ), (d.1.2.1 : ℝ), amp_cmb_i,
    backSubAmp ksz_map d.1.2.2.1 d.1.2.2.2,
    backSubAmp tsz_map d.1.2.2.1 d.1.2.2.2], d.2)

/-- Realization loop of create_parameter_file, appending one row per
realization; i is the current loop index, the second argument the number
of remaining iterations. -/
def paramLoop (E : Collab S C) (ksz_map tsz_map : SkyMap) (amp_cmb : ℕ → ℝ) :
    ℕ → ℕ → S → List (List ℝ) × S
  | _, 0, s => ([], s)
  | i, n + 1, s =>
      let r := realizationRow E ksz_map tsz_map (amp_cmb i) s
      let rest := paramLoop E ksz_map tsz_map amp_cmb (i + 1) n r.2
      (r.1 :: rest.1, rest.2)

/-- Model of Parameters.create_parameter_file: obtain the CMB anisotropy
amplitudes, the kSZ map and the tSZ map (each call reseeding the global
generator with the default seed 40), run the realization loop from the
random state left by create_tsz_map, prepend the all-zero sentinel row and
drop it again with params[1:, :].  The returned matrix is the one persisted
by np.save (persistence itself is outside the model). -/
def create_parameter_file (E : Collab S C) (angular_resolution : ℝ)
    (realizations : ℕ) : List (List ℝ) :=
  let amp_cmb := (create_cmb_map E angular_resolution realizations 40).1
  let ksz_map := (create_ksz_map E angular_resolution 40).1
  let tsz_map := (create_tsz_map E angular_resolution 40).1
  let s0 := (create_tsz_map E angular_resolution 40).2
  let rows := (paramLoop E ksz_map tsz_map (fun i => amp_cmb.getD i 0) 0 realizations s0).1
  ([([0, 0, 0, 0, 0] : List ℝ)] ++ rows).drop 1

/-- Concrete collaborator bundle used by the witness theorems: trivial
state, zero-valued maps and spectra, a randint that returns its lower
bound, and a root-finder that returns its starting point. -/
def collabUnit : Collab Unit Unit where
  npseed _ := ()
  camb_dl_tt _ := 0
  get_bl _ _ := fun _ _ => 0
  get_nl _ _ := 0
  get_lpf_hpf _ _ _ := fun _ _ => 0
  make_gaussian_realisation _ _ _ _ := (fun _ _ => 0, ())
  get_covariance _ _ _ _ _ _ _ _ _ := ((), ())
  inpainting _ _ _ _ _ _ _ _ _ := ((fun _ _ => 0, fun _ _ => 0, fun _ _ => 0), ())
  randint lo _ _ := (lo, ())
  fsolve _ x0 _ := x0

/-- C2 counterexample: in the D_l to C_l conversions of create_ksz_map and
create_tsz_map the converted value at multipole 0 is not the real number 0,
because dl_fac 0 = 0 and the division is unguarded, so numpy evaluates
0/0 to NaN (modelled as none). -/
theorem monopole_conversion_not_zero :
    dlToCl ksz_dl 0 ≠ some 0 ∧ dlToCl tsz_dl 0 ≠ some 0 ∧ dl_fac 0 = 0 := by
  have h0 : dl_fac 0 = 0 := by simp [dl_fac]
  refine ⟨?_, ?_, h0⟩ <;> simp [dlToCl, fdiv, h0]

/-- C2 amended: in every conversion (create_cmb_map, create_ksz_map,
create_tsz_map) the D_l entry at multipole 0 is forced to zero first, but
the division by l(l+1)/2 pi is unguarded at l = 0, where dl_fac 0 = 0 and
the converted C_l value is NaN (none) rather than zero; for every l >= 1
the conversion is well-defined and equals TCMB^2 D_l 1e12 / dl_fac l. -/
theorem monopole_conversion (camb : ℕ → ℝ) :
    ksz_dl 0 = 0 ∧ tsz_dl 0 = 0 ∧ cmb_dl camb 0 = 0 ∧ dl_fac 0 = 0 ∧
    (∀ dl : ℕ → ℝ, dlToCl dl 0 = none) ∧
    (∀ dl : ℕ → ℝ, ∀ l : ℕ, 1 ≤ l →
      dlToCl dl l = some (TCMB ^ 2 * dl l * 1e12 / dl_fac l)) := by
  have h0 : dl_fac 0 = 0 := by simp [dl_fac]
  refine ⟨rfl, rfl, rfl, h0, fun dl => by simp [dlToCl, fdiv, h0], fun dl l hl => ?_⟩
  have h1 : (0:ℝ) < l := by exact_mod_cast hl
  have h2 : (0:ℝ) < (l:ℝ) + 1 := by linarith
  have hfac : dl_fac l ≠ 0 := by
    have : 0 < dl_fac l := by
      rw [dl_fac]
      exact div_pos (div_pos (mul_pos h1 h2) two_pos) Real.pi_pos
    exact ne_of_gt this
  simp [dlToCl, fdiv, hfac]

/-- Witness for the amended C2 at the kSZ spectrum and multipoles 0 and 1. -/
theorem monopole_conversion_witness :
    dlToCl ksz_dl 0 = none ∧
    dlToCl ksz_dl 1 = some (TCMB ^ 2 * ksz_dl 1 * 1e12 / dl_fac 1) :=
  ⟨(monopole_conversion (fun _ => 0)).2.2.2.2.1 ksz_dl,
   (monopole_conversion (fun _ => 0)).2.2.2.2.2 ksz_dl 1 (by norm_num)⟩

/-- C7: for a constant-valued map, the background-subtracted amplitude of
create_parameter_file (the pixel at a sampled coordinate minus the mean of
its surrounding 5-by-5 neighbourhood) is exactly zero, at every coordinate
in the sampling range [2, 998). -/
theorem constant_map_amp_zero (m : SkyMap) (v : ℝ) (hm : ∀ i j, m i j = v)
    (long lat : ℕ) (h1 : 2 ≤ long) (h2 : long < 998) (h3 : 2 ≤ lat)
    (h4 : lat < 998) :
    backSubAmp m long lat = 0 := by
  simp only [backSubAmp, localMean, hm]
  simp [Finset.sum_const, Finset.card_range, nsmul_eq_mul]
  ring

/-- Witness for C7 on the constant map with value 3 at coordinate (2, 2). -/
theorem constant_map_amp_zero_witness : backSubAmp (fun _ _ => 3) 2 2 = 0 :=
  constant_map_amp_zero (fun _ _ => 3) 3 (fun _ _ => rfl) 2 2 (le_refl 2)
    (by norm_num) (le_refl 2) (by norm_num)

/-- C10: the sampling bounds [2, 998) of create_parameter_file are fixed
literals independent of the actual map size nxOf angular_resolution;
whenever nxOf angular_resolution <= 997 (in particular at resolution 4.0,
where nxOf 4 = 750) there are draws inside the sampling range whose
single-pixel read is out of bounds (IndexError, modelled none), while at
the default resolution 3.0 (nxOf 3 = 1000) every draw in range reads in
bounds. -/
theorem sampling_bounds_vs_map_size :
    (∀ res : ℝ, nxOf res ≤ 997 →
      ∃ long lat : ℕ, 2 ≤ long ∧ long < 998 ∧ 2 ≤ lat ∧ lat < 998 ∧
        ∀ m : SkyMap, readPixel (nxOf res) m long lat = none) ∧
    nxOf 4 = 750 ∧ nxOf 3 = 1000 ∧
    (∀ long lat : ℕ, 2 ≤ long → long < 998 → 2 ≤ lat → lat < 998 →
      ∀ m : SkyMap, readPixel (nxOf 3) m long lat = some (m long lat)) := by
  have h4 : nxOf 4 = 750 := by
    rw [nxOf, show (3000:ℝ)/4 = ((750:ℕ):ℝ) by norm_num, Nat.floor_natCast]
  have h3 : nxOf 3 = 1000 := by
    rw [nxOf, show (3000:ℝ)/3 = ((1000:ℕ):ℝ) by norm_num, Nat.floor_natCast]
  refine ⟨fun res h => ⟨997, 997, by norm_num, by norm_num, by norm_num, by norm_num,
    fun m => ?_⟩, h4, h3, fun long lat hl1 hl2 hl3 hl4 m => ?_⟩
  · rw [readPixel, if_neg]
    omega
  · rw [h3, readPixel, if_pos]
    omega

/-- Witness for C10 at resolution 4.0, whose 750-pixel map is smaller than
the sampling range. -/
theorem sampling_bounds_vs_map_size_witness :
    ∃ long lat : ℕ, 2 ≤ long ∧ long < 998 ∧ 2 ≤ lat ∧ lat < 998 ∧
      ∀ m : SkyMap, readPixel (nxOf 4) m long lat = none :=
  sampling_bounds_vs_map_size.1 4
    (by rw [nxOf, show (3000:ℝ)/4 = ((750:ℕ):ℝ) by norm_num, Nat.floor_natCast]; norm_num)

/-- C3: every pixel (i, k) of the Compton-y map returned by create_tsz_map
is the value the scalar root-finder, initialized at y = 0, returns for the
equation classical_tsz(y, 143 GHz) - d_b(dt_pixel, 143 GHz) = 0; whenever
the root-finder meets its tolerance contract on the pixel temperatures
(including maps whose pixels arise as known dt values), the recovered y
satisfies classical_tsz(y, 143 GHz) = d_b(dt, 143 GHz) within tolerance. -/
theorem create_tsz_map_inverts (E : Collab S C) (angular_resolution : ℝ)
    (seed : ℕ) (tol : ℝ)
    (hfs : ∀ i k : ℕ,
      |tszFunc (E.fsolve tszFunc 0 ((tszTempOf E angular_resolution seed).1 i k))
        ((tszTempOf E angular_resolution seed).1 i k)| ≤ tol) (i k : ℕ) :
    (create_tsz_map E angular_resolution seed).1 i k =
      E.fsolve tszFunc 0 ((tszTempOf E angular_resolution seed).1 i k) ∧
    |classical_tsz ((create_tsz_map E angular_resolution seed).1 i k) 143e9 -
      d_b ((tszTempOf E angular_resolution seed).1 i k) 143e9| ≤ tol := by
  refine ⟨rfl, ?_⟩
  have h := hfs i k
  simpa [tszFunc, create_tsz_map] using h

/-- Witness for C3 with the concrete collaborator bundle (zero realisation,
root-finder returning its starting point) at tolerance 0 and pixel (0, 0). -/
theorem create_tsz_map_inverts_witness :
    (create_tsz_map collabUnit 3 40).1 0 0 =
      collabUnit.fsolve tszFunc 0 ((tszTempOf collabUnit 3 40).1 0 0) ∧
    |classical_tsz ((create_tsz_map collabUnit 3 40).1 0 0) 143e9 -
      d_b ((tszTempOf collabUnit 3 40).1 0 0) 143e9| ≤ 0 :=
  create_tsz_map_inverts collabUnit 3 40 0
    (by intro i k; simp [collabUnit, tszTempOf, tszFunc, classical_tsz, d_b]) 0 0

theorem cmbLoop_eq_map (E : Collab S C) (m : SkyMap) (cl : ℕ → FVal)
    (bl lpf : SkyMap) (nl : ℕ → ℝ) (sig : C) (n : ℕ) :
    ∀ s : S, (cmbLoop E m cl bl lpf nl sig n s).1 = (List.range n).map (fun i =>
      (E.inpainting m cl bl lpf nl 8 60 sig (cmbStateAt E m cl bl lpf nl sig s i)).1.2.2 33 33 -
      (E.inpainting m cl bl lpf nl 8 60 sig (cmbStateAt E m cl bl lpf nl sig s i)).1.2.1 33 33) := by
  induction n with
  | zero => intro s; simp [cmbLoop]
  | succ n ih =>
      intro s
      have hstep : ∀ i, cmbStateAt E m cl bl lpf nl sig s (i + 1) =
          cmbStateAt E m cl bl lpf nl sig
            (E.inpainting m cl bl lpf nl 8 60 sig s).2 i := by
        intro i
        simp [cmbStateAt, Function.iterate_succ_apply]
      simp only [cmbLoop]
      rw [ih, List.range_succ_eq_map, List.map_cons, List.map_map]
      refine congrArg₂ List.cons ?_ ?_
      · simp [cmbStateAt]
      · refine List.map_congr_left fun i _ => ?_
        simp only [Function.comp_apply, Nat.succ_eq_add_one]
        rw [hstep]

/-- C1: for every loop iteration i < realizations of create_cmb_map, the
appended anisotropy estimate equals the central pixel [33:34, 33:34] of the
filtered map returned by the inpainting collaborator at that iteration
(third returned map, sim_map_filtered) minus the central pixel of the
inpainted map it returned (second returned map, sim_map_inpainted), and the
i-th entry of the returned sequence is that difference scaled by 1e-6. -/
theorem create_cmb_map_entry (E : Collab S C) (angular_resolution : ℝ)
    (realizations : ℕ) (seed : ℕ) (i : ℕ) (hi : i < realizations) :
    (create_cmb_map E angular_resolution realizations seed).1[i]? =
      some (((cmbInpaintAt E angular_resolution seed i).1.2.2 33 33 -
             (cmbInpaintAt E angular_resolution seed i).1.2.1 33 33) * 1e-6) := by
  simp only [create_cmb_map]
  rw [cmbLoop_eq_map, List.getElem?_map, List.getElem?_map,
    List.getElem?_range hi]
  simp [cmbInpaintAt]

/-- Witness for C1 with the concrete collaborator bundle, one realization,
iteration 0. -/
theorem create_cmb_map_entry_witness :
    (create_cmb_map collabUnit 3 1 40).1[0]? =
      some (((cmbInpaintAt collabUnit 3 40 0).1.2.2 33 33 -
             (cmbInpaintAt collabUnit 3 40 0).1.2.1 33 33) * 1e-6) :=
  create_cmb_map_entry collabUnit 3 1 40 0 (by decide)

/-- C9: the composite CMB+noise map passed to the inpainting collaborator is
one and the same map in every one of the realizations loop iterations of
create_cmb_map: it is simMapOf, built exactly once before the loop as the
sum of the single signal realisation and the single noise realisation, and
the loop output is the per-iteration central-pixel difference of inpainting
applied to that same (never re-drawn, never mutated) map, with only the
covariance object and the random state varying across iterations. -/
theorem create_cmb_map_shares_sim_map (E : Collab S C) (angular_resolution : ℝ)
    (realizations : ℕ) (seed : ℕ) :
    simMapOf E angular_resolution seed = (fun i j =>
      (cmbSignalOf E angular_resolution seed).1 i j +
      (cmbNoiseOf E angular_resolution seed).1 i j) ∧
    (create_cmb_map E angular_resolution realizations seed).1 =
      (List.range realizations).map (fun i =>
        ((cmbInpaintAt E angular_resolution seed i).1.2.2 33 33 -
         (cmbInpaintAt E angular_resolution seed i).1.2.1 33 33) * 1e-6) := by
  refine ⟨rfl, ?_⟩
  simp only [create_cmb_map]
  rw [cmbLoop_eq_map, List.map_map]
  refine List.map_congr_left fun i _ => ?_
  simp [cmbInpaintAt]

theorem realizationRow_shape (E : Collab S C) (ksz_map tsz_map : SkyMap)
    (a : ℝ) (s : S)
    (hrand : ∀ lo hi : ℕ, ∀ t : S, lo < hi →
      lo ≤ (E.randint lo hi t).1 ∧ (E.randint lo hi t).1 < hi) :
    (realizationRow E ksz_map tsz_map a s).1.length = 5 ∧
    ∃ sl sa : ℕ, sl < 160 ∧ sa < 160 ∧
      (realizationRow E ksz_map tsz_map a s).1[0]? = some (sl : ℝ) ∧
      (realizationRow E ksz_map tsz_map a s).1[1]? = some (sa : ℝ) := by
  refine ⟨rfl, (E.randint 0 160 s).1, (E.randint 0 160 (E.randint 0 160 s).2).1,
    (hrand 0 160 s (by norm_num)).2,
    (hrand 0 160 (E.randint 0 160 s).2 (by norm_num)).2, ?_, ?_⟩ <;>
  simp [realizationRow, realizationDraws]

theorem paramLoop_length (E : Collab S C) (ksz_map tsz_map : SkyMap)
    (f : ℕ → ℝ) (n : ℕ) :
    ∀ (i : ℕ) (s : S), (paramLoop E ksz_map tsz_map f i n s).1.length = n := by
  induction n with
  | zero => intro i s; simp [paramLoop]
  | succ n ih => intro i s; simp [paramLoop, ih]

theorem paramLoop_row_shape (E : Collab S C) (ksz_map tsz_map : SkyMap)
    (f : ℕ → ℝ)
    (hrand : ∀ lo hi : ℕ, ∀ t : S, lo < hi →
      lo ≤ (E.randint lo hi t).1 ∧ (E.randint lo hi t).1 < hi) (n : ℕ) :
    ∀ (i : ℕ) (s : S), ∀ row ∈ (paramLoop E ksz_map tsz_map f i n s).1,
      row.length = 5 ∧ ∃ sl sa : ℕ, sl < 160 ∧ sa < 160 ∧
        row[0]? = some (sl : ℝ) ∧ row[1]? = some (sa : ℝ) := by
  induction n with
  | zero => intro i s row hrow; simp [paramLoop] at hrow
  | succ n ih =>
      intro i s row hrow
      simp only [paramLoop, List.mem_cons] at hrow
      rcases hrow with h | h
      · subst h
        exact realizationRow_shape E ksz_map tsz_map (f i) s hrand
      · exact ih (i + 1) _ row h

/-- C4: the parameter matrix persisted by create_parameter_file has exactly
realizations rows of 5 entries each (the initial all-zero sentinel row is
dropped), in every row the first two entries are catalog coordinates drawn
from [0, 160), and the map coordinates used to read the kSZ and tSZ
amplitudes in any iteration are drawn from [2, 998); the randint contract
(a draw from [lo, hi) lies in [lo, hi)) is the stated hypothesis on the
delegated generator. -/
theorem create_parameter_file_shape (E : Collab S C) (angular_resolution : ℝ)
    (realizations : ℕ)
    (hrand : ∀ lo hi : ℕ, ∀ t : S, lo < hi →
      lo ≤ (E.randint lo hi t).1 ∧ (E.randint lo hi t).1 < hi) :
    (create_parameter_file E angular_resolution realizations).length = realizations ∧
    (∀ row ∈ create_parameter_file E angular_resolution realizations,
      row.length = 5 ∧ ∃ sl sa : ℕ, sl < 160 ∧ sa < 160 ∧
        row[0]? = some (sl : ℝ) ∧ row[1]? = some (sa : ℝ)) ∧
    (∀ s : S, 2 ≤ (realizationDraws E s).1.2.2.1 ∧
      (realizationDraws E s).1.2.2.1 < 998 ∧
      2 ≤ (realizationDraws E s).1.2.2.2 ∧
      (realizationDraws E s).1.2.2.2 < 998) := by
  have hdrop : create_parameter_file E angular_resolution realizations =
      (paramLoop E (create_ksz_map E angular_resolution 40).1
        (create_tsz_map E angular_resolution 40).1
        (fun i => (create_cmb_map E angular_resolution realizations 40).1.getD i 0)
        0 realizations (create_tsz_map E angular_resolution 40).2).1 := by
    simp [create_parameter_file]
  refine ⟨?_, ?_, ?_⟩
  · rw [hdrop, paramLoop_length]
  · rw [hdrop]
    exact paramLoop_row_shape E _ _ _ hrand realizations 0 _
  · intro s
    simp only [realizationDraws]
    exact ⟨(hrand 2 998 _ (by norm_num)).1, (hrand 2 998 _ (by norm_num)).2,
      (hrand 2 998 _ (by norm_num)).1, (hrand 2 998 _ (by norm_num)).2⟩

/-- Witness for C4 with the concrete collaborator bundle, 2 realizations at
resolution 3.0. -/
theorem create_parameter_file_shape_witness :
    (create_parameter_file collabUnit 3 2).length = 2 :=
  (create_parameter_file_shape collabUnit 3 2
    (fun lo hi t h => ⟨le_refl lo, h⟩)).1

/-- C5: with the delegated collaborators (power-spectrum solver, gaussian
field generator, covariance and inpainting service, random generator)
modelled as explicit deterministic functions of the seeded state, which is
the assumption of the claim, two runs of create_parameter_file with the
same collaborator bundle, angular_resolution and realizations produce
identical parameter matrices, and two calls of any map-building method with
the same bundle, seed and resolution (hence the same map size) produce
identical fields. -/
theorem runs_are_reproducible (E E2 : Collab S C) (res res2 : ℝ)
    (R R2 seed seed2 : ℕ) (hE : E = E2) (hres : res = res2) (hR : R = R2)
    (hseed : seed = seed2) :
    create_parameter_file E res R = create_parameter_file E2 res2 R2 ∧
    create_cmb_map E res R seed = create_cmb_map E2 res2 R2 seed2 ∧
    create_ksz_map E res seed = create_ksz_map E2 res2 seed2 ∧
    create_tsz_map E res seed = create_tsz_map E2 res2 seed2 := by
  subst hE hres hR hseed
  exact ⟨rfl, rfl, rfl, rfl⟩

/-- Witness for C5: two identical runs with the concrete bundle, resolution
3.0, 2 realizations and seed 40 coincide. -/
theorem runs_are_reproducible_witness :
    create_parameter_file collabUnit 3 2 = create_parameter_file collabUnit 3 2 ∧
    create_cmb_map collabUnit 3 2 40 = create_cmb_map collabUnit 3 2 40 ∧
    create_ksz_map collabUnit 3 40 = create_ksz_map collabUnit 3 40 ∧
    create_tsz_map collabUnit 3 40 = create_tsz_map collabUnit 3 40 :=
  runs_are_reproducible collabUnit collabUnit 3 3 2 2 40 40 rfl rfl rfl rfl

end
